import Mathlib

/-!
Shallow embedding of the task-store core of `src/todo_app.py`.

A task record is a Python dict with optional keys (`TypedDict(total := False)`);
an `Option` field set to `none` models an absent key.  Python truthiness of
optional values is modelled explicitly.  The mutating methods of `TodoApp`
become functions on an explicit `AppState` (the ambient `self.tasks` list plus
the `self._next_id` counter); each returns the new state together with flags
recording whether `save_tasks` was called and whether a message box was shown.
-/

namespace TodoApp

/-- One task record, mirroring the `Task` TypedDict of `todo_app.py`.
`none` in an optional field means the key is absent from the dict. -/
structure Task where
  id : Nat
  task : Option String := none
  status : Option String := none
  done : Option Bool := none
  priority : Option String := none
deriving DecidableEq, Repr

/-- Python `str.lower()` (ASCII case folding, character by character). -/
def pyLower (s : String) : String :=
  ⟨s.data.map Char.toLower⟩

/-- Python `str.strip()` on a character list: drop leading and trailing
whitespace. -/
def pyStripChars (l : List Char) : List Char :=
  ((l.dropWhile Char.isWhitespace).reverse.dropWhile Char.isWhitespace).reverse

/-- Python `str.strip()`. -/
def pyStrip (s : String) : String :=
  ⟨pyStripChars s.data⟩

/-- Python truthiness of `task.get(key)` for a string-valued key:
`None` and the empty string are falsy. -/
def strTruthy : Option String → Bool
  | none => false
  | some s => !s.data.isEmpty

/-- Python truthiness of `task.get("done")`: `None` is falsy, a bool is itself. -/
def boolTruthy : Option Bool → Bool
  | none => false
  | some b => b

/-- Round a rational to the nearest integer, ties to even. -/
def roundHalfEven (q : ℚ) : ℤ :=
  if q - ⌊q⌋ < 1 / 2 then ⌊q⌋
  else if 1 / 2 < q - ⌊q⌋ then ⌊q⌋ + 1
  else if ⌊q⌋ % 2 = 0 then ⌊q⌋ else ⌊q⌋ + 1

/-- Round a positive rational to the IEEE binary64 grid, to nearest with ties
to even: with `e` the binade exponent `⌊log₂ q⌋` clamped at `-1022`, the
binary64 values around `q` are exactly the integer multiples of
`2 ^ (e - 52)` (the clamp yields the subnormal grid of spacing `2 ^ (-1074)`
below the normal range). -/
def roundB64pos (q : ℚ) : ℚ :=
  (roundHalfEven (q * 2 ^ ((52 : ℤ) - max (Int.log 2 q) (-1022))) : ℚ) *
    2 ^ (max (Int.log 2 q) (-1022) - 52)

/-- IEEE binary64 rounding (round to nearest, ties to even) as a map on exact
rationals; a binary64 value is the exact rational it denotes.  Overflow to
infinity is not modelled: every quantity arising here is at most about 100,
far below the overflow threshold. -/
def roundB64 (q : ℚ) : ℚ :=
  if q = 0 then 0
  else if 0 < q then roundB64pos q
  else -roundB64pos (-q)

/-- Result of `calculate_stats`: the dict of counters plus the completion
percentage, a Python float whose exact value is a rational on the binary64
grid. -/
structure Stats where
  total : Nat
  pending : Nat
  in_progress : Nat
  done : Nat
  completion_percent : ℚ
deriving DecidableEq, Repr

/-- Embedding of `calculate_stats` (todo_app.py lines 47-70): counts by exact
string comparison on `t.get("status")`, and `completion_percent` is the
Python float `done / total * 100` when `total > 0`, else the int `0`.  Python
evaluates this as binary64 arithmetic: `done / total` is the true quotient
correctly rounded to binary64, and the product with the exactly representable
`100` is rounded once more. -/
def calculate_stats (tasks : List Task) : Stats :=
  let total := tasks.length
  let pending := tasks.countP (fun t => t.status == some "pending")
  let in_progress := tasks.countP (fun t => t.status == some "in_progress")
  let done := tasks.countP (fun t => t.status == some "done")
  let completion_percent : ℚ :=
    if total > 0 then roundB64 (roundB64 ((done : ℚ) / (total : ℚ)) * 100) else 0
  { total := total, pending := pending, in_progress := in_progress,
    done := done, completion_percent := completion_percent }

/-- Python `needle in hay` on strings: substring (contiguous infix) test. -/
def pyContains (hay needle : String) : Bool :=
  decide (needle.data <:+: hay.data)

/-- Embedding of the body of the loop in `filter_tasks`: the three `continue`
guards, in source order.  `search_lower` is the already lowered-and-stripped
search text. -/
def filterLoop (status_filter priority_filter : Option String)
    (search_lower : String) : List Task → List Task
  | [] => []
  | task :: rest =>
    if strTruthy status_filter && !(task.status == status_filter) then
      filterLoop status_filter priority_filter search_lower rest
    else if strTruthy priority_filter && !(task.priority == priority_filter) then
      filterLoop status_filter priority_filter search_lower rest
    else if !search_lower.data.isEmpty &&
        !(pyContains (pyLower (task.task.getD "")) search_lower) then
      filterLoop status_filter priority_filter search_lower rest
    else
      task :: filterLoop status_filter priority_filter search_lower rest

/-- Embedding of `filter_tasks` (todo_app.py lines 73-106).  A `none` filter is
Python `None`; `search_text` is lowered then stripped before matching. -/
def filter_tasks (tasks : List Task) (status_filter priority_filter : Option String)
    (search_text : String) : List Task :=
  filterLoop status_filter priority_filter (pyStrip (pyLower search_text)) tasks

/-- The conjunction of the three filter constraints, as a single predicate:
an unset (falsy) status or priority filter and an empty search are no
constraint; the search is a substring test on the lowered record text. -/
def keepTask (status_filter priority_filter : Option String)
    (search_lower : String) (t : Task) : Bool :=
  (!strTruthy status_filter || t.status == status_filter) &&
  (!strTruthy priority_filter || t.priority == priority_filter) &&
  (search_lower.data.isEmpty || pyContains (pyLower (t.task.getD "")) search_lower)

/-- Abstraction of `json.loads` output: either a Python list of task dicts or
some other JSON value (`isinstance(data, list)` fails). -/
inductive JsonData where
  | arr (tasks : List Task)
  | nonList
deriving DecidableEq, Repr

/-- State of the persisted file as seen by `load_tasks`: absent, present but
not decodable as JSON (`json.JSONDecodeError`), or decodable JSON. -/
inductive FileState where
  | absent
  | invalidJson
  | json (data : JsonData)
deriving DecidableEq, Repr

/-- Result of `load_tasks`: the returned list, whether the corruption warning
dialog was shown, and the file contents afterwards. -/
structure LoadResult where
  tasks : List Task
  warned : Bool
  disk : FileState
deriving DecidableEq, Repr

/-- Embedding of `load_tasks` (todo_app.py lines 109-124): absent file gives
`[]`; a `JSONDecodeError` shows the warning and gives `[]`; decoded JSON that
is not a list gives `[]` with no warning; a list is returned as is.  The
function only reads the file, so `disk` is always the input state. -/
def load_tasks : FileState → LoadResult
  | .absent => { tasks := [], warned := false, disk := .absent }
  | .invalidJson => { tasks := [], warned := true, disk := .invalidJson }
  | .json .nonList => { tasks := [], warned := false, disk := .json .nonList }
  | .json (.arr ts) => { tasks := ts, warned := false, disk := .json (.arr ts) }

/-- The mutable state of `TodoApp` relevant to the store: `self.tasks` and
`self._next_id`. -/
structure AppState where
  tasks : List Task
  next_id : Nat
deriving DecidableEq, Repr

/-- Seeding of `self._next_id` in `TodoApp.__init__` (todo_app.py line 145):
`max([t.get("id", 0) for t in tasks], default=0) + 1`. -/
def initState (loaded : List Task) : AppState :=
  { tasks := loaded, next_id := (loaded.map Task.id).foldr max 0 + 1 }

/-- Result of one mutating call: the new state, whether `save_tasks` ran, and
whether a message box was shown. -/
structure OpResult where
  state : AppState
  saved : Bool
  notified : Bool
deriving DecidableEq, Repr

/-- Embedding of `TodoApp.add_task` (todo_app.py lines 670-687): strip the
entry text; if empty, show a dialog and return without mutating; otherwise
append a record with the next id, `status = "pending"`, `done = False` and the
chosen priority, bump the counter and save. -/
def add_task (s : AppState) (entry_text : String) (priority : String) : OpResult :=
  let text := pyStrip entry_text
  if text.data.isEmpty then
    { state := s, saved := false, notified := true }
  else
    let t : Task := { id := s.next_id, task := some text, done := some false,
                      status := some "pending", priority := some priority }
    { state := { tasks := s.tasks ++ [t], next_id := s.next_id + 1 },
      saved := true, notified := false }

/-- The `valid` set of `TodoApp.set_status`. -/
def isValidStatus (status : String) : Bool :=
  status == "pending" || status == "in_progress" || status == "done"

/-- Embedding of `TodoApp.set_status` (todo_app.py lines 689-706): return
early on an empty selection or an invalid status; otherwise set `status` and
the mirrored `done` on every selected record and save. -/
def set_status (s : AppState) (ids : List Nat) (status : String) : OpResult :=
  if ids.isEmpty then
    { state := s, saved := false, notified := false }
  else if !isValidStatus status then
    { state := s, saved := false, notified := false }
  else
    let tasks := s.tasks.map fun t =>
      if ids.contains t.id then
        { t with status := some status, done := some (status == "done") }
      else t
    { state := { tasks := tasks, next_id := s.next_id },
      saved := true, notified := false }

/-- One step of the status cycle in `TodoApp.toggle_selected`:
`pending → in_progress → done → pending`, with a missing status read as
`pending` and anything unrecognised sent to `pending`. -/
def cycleTask (t : Task) : Task :=
  let current := t.status.getD "pending"
  let nxt :=
    if current == "pending" then "in_progress"
    else if current == "in_progress" then "done"
    else "pending"
  { t with status := some nxt, done := some (nxt == "done") }

/-- Embedding of `TodoApp.toggle_selected` (todo_app.py lines 708-724). -/
def toggle_selected (s : AppState) (ids : List Nat) : OpResult :=
  if ids.isEmpty then
    { state := s, saved := false, notified := false }
  else
    { state := { tasks := s.tasks.map fun t =>
                   if ids.contains t.id then cycleTask t else t,
                 next_id := s.next_id },
      saved := true, notified := false }

/-- Embedding of `TodoApp.remove_selected` (todo_app.py lines 726-749):
empty selection returns early; otherwise the confirmation dialog's answer
decides whether the selected records are dropped and the list saved. -/
def remove_selected (s : AppState) (ids : List Nat) (confirmed : Bool) : OpResult :=
  if ids.isEmpty then
    { state := s, saved := false, notified := false }
  else if confirmed then
    { state := { tasks := s.tasks.filter fun t => !ids.contains t.id,
                 next_id := s.next_id },
      saved := true, notified := false }
  else
    { state := s, saved := false, notified := false }

/-- Per-record part of `TodoApp._normalize_tasks` (todo_app.py lines 157-180):
a falsy status is derived from legacy `done` and `done` is set consistently;
a missing priority becomes `"medium"`. -/
def normalizeTask (t : Task) : Task :=
  let t1 :=
    if !strTruthy t.status then
      let status := if boolTruthy t.done then "done" else "pending"
      { t with status := some status, done := some (status == "done") }
    else t
  if t1.priority = none then { t1 with priority := some "medium" } else t1

/-- Embedding of the collection-level effect of `TodoApp._normalize_tasks`. -/
def normalize_tasks (tasks : List Task) : List Task :=
  tasks.map normalizeTask

/-- The `priority_order` dict lookup of `TodoApp._refresh_list` (todo_app.py
line 540-542): `{"high": 0, "medium": 1, "low": 2}.get(p, 1)`. -/
def priority_order (p : String) : Nat :=
  if p == "high" then 0 else if p == "medium" then 1
  else if p == "low" then 2 else 1

/-- The sort key of `TodoApp._refresh_list`:
`(priority_order.get(t.get("priority", "medium"), 1), t.get("id", 0))`. -/
def taskSortKey (t : Task) : Nat × Nat :=
  (priority_order (t.priority.getD "medium"), t.id)

/-- Lexicographic comparison of sort keys, as Python tuple comparison does. -/
def taskLE (a b : Task) : Bool :=
  (taskSortKey a).1 < (taskSortKey b).1 ||
  ((taskSortKey a).1 == (taskSortKey b).1 && (taskSortKey a).2 ≤ (taskSortKey b).2)

/-- The sort relation as a decidable total preorder. -/
def taskRel (a b : Task) : Prop := taskLE a b = true

instance : DecidableRel taskRel := fun a b => instDecidableEqBool (taskLE a b) true

instance : IsTotal Task taskRel :=
  ⟨fun a b => by
    unfold taskRel taskLE
    rcases Nat.lt_trichotomy (taskSortKey a).1 (taskSortKey b).1 with h | h | h
    · exact Or.inl (by simp [h])
    · rcases Nat.le_total (taskSortKey a).2 (taskSortKey b).2 with h2 | h2
      · exact Or.inl (by simp [h, h2])
      · exact Or.inr (by simp [h, h2])
    · exact Or.inr (by simp [h])⟩

instance : IsTrans Task taskRel :=
  ⟨fun a b c hab hbc => by
    unfold taskRel taskLE at *
    simp only [Bool.or_eq_true, Bool.and_eq_true, decide_eq_true_eq, beq_iff_eq] at *
    omega⟩

/-- Embedding of the `sorted(filtered_tasks, key := ...)` call of
`TodoApp._refresh_list`.  Python's `sorted` is specified as a stable sort by
the key, which determines the output list uniquely; it is embedded here as a
stable insertion sort ordered by the same key. -/
def sort_tasks (tasks : List Task) : List Task :=
  tasks.insertionSort taskRel

/-- Python `int(q)`: truncation toward zero, applied in
`TodoApp._update_dashboard` (line 644) to the float value of
`stats["completion_percent"]`. -/
def pyInt (q : ℚ) : Int :=
  if q < 0 then -⌊-q⌋ else ⌊q⌋

/-- The integer percentage shown by `TodoApp._update_dashboard`: the
truncation of the binary64 completion percentage. -/
def displayed_completion_percent (tasks : List Task) : Int :=
  pyInt (calculate_stats tasks).completion_percent

/-- A record's status is one of the three enum values (as a string in the
`status` key). -/
def statusCounted (t : Task) : Bool :=
  t.status == some "pending" || t.status == some "in_progress" ||
  t.status == some "done"

/-- The redundant-mirror invariant: the `done` key is present and equals the
test `status == "done"`. -/
def done_mirrors_status (t : Task) : Prop :=
  t.done = some (t.status == some "done")

/-- The mirror invariant for every record of the collection. -/
def doneInvariant (s : AppState) : Prop :=
  ∀ t ∈ s.tasks, done_mirrors_status t

/-- Every stored id is below the counter: the id-freshness invariant. -/
def idsBelowNext (s : AppState) : Prop :=
  ∀ t ∈ s.tasks, t.id < s.next_id

/-- Start of the id scenario: the store loaded from an absent file. -/
def demoEmptyStart : AppState := initState []

/-- After `add("a")`. -/
def demoAfterA : AppState := (add_task demoEmptyStart "a" "medium").state

/-- After `add("a")` then `add("b")`. -/
def demoAfterB : AppState := (add_task demoAfterA "b" "medium").state

/-- After removing the task with id 1. -/
def demoAfterRemove : AppState := (remove_selected demoAfterB [1] true).state

/-- After a further `add("c")`. -/
def demoAfterC : AppState := (add_task demoAfterRemove "c" "medium").state

/-- Three tasks of which exactly one is done, for the truncation example. -/
def demoThreeTasks : List Task :=
  [{ id := 1, task := some "x", status := some "done", done := some true,
     priority := some "medium" },
   { id := 2, task := some "y", status := some "pending", done := some false,
     priority := some "medium" },
   { id := 3, task := some "z", status := some "pending", done := some false,
     priority := some "medium" }]

/-- The three records of the sort example: (priority, id) = (low, 1),
(high, 2), (medium, 3). -/
def demoSortInput : List Task :=
  [{ id := 1, task := some "t1", status := some "pending", done := some false,
     priority := some "low" },
   { id := 2, task := some "t2", status := some "pending", done := some false,
     priority := some "high" },
   { id := 3, task := some "t3", status := some "pending", done := some false,
     priority := some "medium" }]

/-- The record of the case-insensitive search example. -/
def demoMilkTask : Task :=
  { id := 1, task := some "Buy Milk", status := some "pending",
    priority := some "medium" }

/-- A legacy record: no `status` key, `done: true`, no `priority`. -/
def demoLegacyTask : Task :=
  { id := 5, task := some "legacy", done := some true }

/-- A record whose `status` is none of the three enum values. -/
def demoBogusStatusTask : Task :=
  { id := 9, task := some "odd", status := some "weird",
    done := some false, priority := some "medium" }

/-- One hundred tasks of which exactly the first 29 are done: the input where
binary64 rounding makes the displayed percentage 28, not 29. -/
def demo29of100 : List Task :=
  (List.range 100).map fun i =>
    { id := i + 1, task := some "t",
      status := some (if i < 29 then "done" else "pending"),
      done := some (decide (i < 29)), priority := some "medium" }

end TodoApp

namespace TodoApp

/-- C3: for every state and every selection, `set_status` with a value outside
the three valid statuses is a silent no-op: the state is unchanged, nothing is
saved, and no dialog is shown. -/
theorem set_status_invalid_silent_noop (s : AppState) (ids : List Nat)
    (status : String) (h1 : status ≠ "pending") (h2 : status ≠ "in_progress")
    (h3 : status ≠ "done") :
    set_status s ids status = { state := s, saved := false, notified := false } := by
  have hv : isValidStatus status = false := by
    simp [isValidStatus, h1, h2, h3]
  unfold set_status
  rw [hv]
  split <;> rfl

/-- Witness for C3: a concrete invalid status on a concrete non-empty store is
a silent no-op. -/
theorem set_status_invalid_silent_noop_witness :
    set_status demoAfterB [1] "bogus" =
      { state := demoAfterB, saved := false, notified := false } :=
  set_status_invalid_silent_noop demoAfterB [1] "bogus"
    (by decide) (by decide) (by decide)

/-- C5: `add_task` with a text that strips to the empty string shows the
dialog and performs no mutation: same state (so no id is consumed) and no
save. -/
theorem add_task_blank_text_rejected (s : AppState) (text priority : String)
    (h : pyStrip text = "") :
    add_task s text priority = { state := s, saved := false, notified := true } := by
  unfold add_task
  rw [h]
  rfl

/-- Witness for C5: adding `"   "` to a concrete two-task store is rejected
without mutation. -/
theorem add_task_blank_text_rejected_witness :
    add_task demoAfterB "   " "high" =
      { state := demoAfterB, saved := false, notified := true } :=
  add_task_blank_text_rejected demoAfterB "   " "high" (by decide)

/-- C4 counterexample: a present file whose decoded JSON is not the expected
list-of-records shape is treated as an empty collection silently: the warning
(the `CorruptedStoreError` signal) is not raised, contradicting the claim that
every unparseable-shape file signals it. -/
theorem load_tasks_non_list_is_silent :
    load_tasks (FileState.json JsonData.nonList) =
      { tasks := [], warned := false, disk := FileState.json JsonData.nonList } :=
  rfl

/-- C4 (amended): an absent file loads as the empty collection; a file that is
not decodable as JSON signals the corruption warning and loads as empty; a
decodable file that is not a list loads as empty with no signal; a list is
returned as is.  In every case the on-disk content is left untouched. -/
theorem load_tasks_spec :
    load_tasks FileState.absent =
      { tasks := [], warned := false, disk := FileState.absent } ∧
    load_tasks FileState.invalidJson =
      { tasks := [], warned := true, disk := FileState.invalidJson } ∧
    load_tasks (FileState.json JsonData.nonList) =
      { tasks := [], warned := false, disk := FileState.json JsonData.nonList } ∧
    ∀ ts, load_tasks (FileState.json (JsonData.arr ts)) =
      { tasks := ts, warned := false, disk := FileState.json (JsonData.arr ts) } :=
  ⟨rfl, rfl, rfl, fun _ => rfl⟩

/-- A member of a list of naturals is bounded by the max-fold of the list. -/
theorem mem_le_foldr_max (a : Nat) (l : List Nat) (h : a ∈ l) :
    a ≤ l.foldr max 0 := by
  induction l with
  | nil => cases h
  | cons b l ih =>
    rcases List.mem_cons.mp h with rfl | h
    · exact Nat.le_max_left _ _
    · exact le_trans (ih h) (Nat.le_max_right _ _)

/-- C1: every mutating call (`add_task`, `set_status`, `toggle_selected`,
`remove_selected`) preserves the invariant that each record's `done` field
equals the test `status == "done"`. -/
theorem done_mirror_preserved :
    (∀ s text priority, doneInvariant s → doneInvariant (add_task s text priority).state) ∧
    (∀ s ids status, doneInvariant s → doneInvariant (set_status s ids status).state) ∧
    (∀ s ids, doneInvariant s → doneInvariant (toggle_selected s ids).state) ∧
    (∀ s ids c, doneInvariant s → doneInvariant (remove_selected s ids c).state) := by
  refine ⟨?_, ?_, ?_, ?_⟩
  · intro s text priority hs
    unfold add_task
    by_cases he : (pyStrip text).data.isEmpty
    · simpa [he] using hs
    · simp only [he, if_false, Bool.false_eq_true]
      intro t ht
      rcases List.mem_append.mp ht with h | h
      · exact hs t h
      · simp only [List.mem_singleton] at h
        subst h
        rfl
  · intro s ids status hs
    unfold set_status
    split
    · exact hs
    · split
      · exact hs
      · intro t ht
        rcases List.mem_map.mp ht with ⟨t₀, ht₀, rfl⟩
        split
        · exact rfl
        · exact hs t₀ ht₀
  · intro s ids hs
    unfold toggle_selected
    split
    · exact hs
    · intro t ht
      rcases List.mem_map.mp ht with ⟨t₀, ht₀, rfl⟩
      split
      · exact rfl
      · exact hs t₀ ht₀
  · intro s ids c hs
    unfold remove_selected
    split
    · exact hs
    · split
      · intro t ht
        exact hs t (List.mem_of_mem_filter ht)
      · exact hs

/-- Witness for C1: the invariant holds after each mutation applied to a
concrete two-task store. -/
theorem done_mirror_preserved_witness :
    doneInvariant (add_task demoAfterB "d" "low" |>.state) ∧
    doneInvariant (set_status demoAfterB [1] "done" |>.state) ∧
    doneInvariant (toggle_selected demoAfterB [2] |>.state) ∧
    doneInvariant (remove_selected demoAfterB [1] true |>.state) :=
  ⟨done_mirror_preserved.1 demoAfterB "d" "low"
      (by unfold doneInvariant done_mirrors_status; decide),
   done_mirror_preserved.2.1 demoAfterB [1] "done"
      (by unfold doneInvariant done_mirrors_status; decide),
   done_mirror_preserved.2.2.1 demoAfterB [2]
      (by unfold doneInvariant done_mirrors_status; decide),
   done_mirror_preserved.2.2.2 demoAfterB [1] true
      (by unfold doneInvariant done_mirrors_status; decide)⟩

/-- C2: the id counter is seeded to `max(existing ids) + 1` at load time (so
all loaded ids are below it), `add_task` assigns an id never equal to any
stored id and every operation keeps all ids below the counter (ids are never
reused, even after deletion); concretely, from an empty store `add("a")`
yields id 1, `add("b")` yields id 2, and after `remove({1})` a further
`add("c")` yields id 3, not 1. -/
theorem ids_monotone_never_reused :
    (∀ loaded, idsBelowNext (initState loaded)) ∧
    (∀ s text priority, idsBelowNext s →
      (∀ t ∈ s.tasks, t.id ≠ s.next_id) ∧
      idsBelowNext (add_task s text priority).state) ∧
    (∀ s ids status, idsBelowNext s → idsBelowNext (set_status s ids status).state) ∧
    (∀ s ids, idsBelowNext s → idsBelowNext (toggle_selected s ids).state) ∧
    (∀ s ids c, idsBelowNext s → idsBelowNext (remove_selected s ids c).state) ∧
    (demoAfterA.tasks.map Task.id = [1] ∧ demoAfterB.tasks.map Task.id = [1, 2] ∧
     demoAfterRemove.tasks.map Task.id = [2] ∧ demoAfterC.tasks.map Task.id = [2, 3]) := by
  refine ⟨?_, ?_, ?_, ?_, ?_, by decide, by decide, by decide, by decide⟩
  · intro loaded t ht
    have hm : t.id ∈ loaded.map Task.id := List.mem_map_of_mem Task.id ht
    exact Nat.lt_succ_of_le (mem_le_foldr_max _ _ hm)
  · intro s text priority hs
    refine ⟨fun t ht => Nat.ne_of_lt (hs t ht), ?_⟩
    unfold add_task
    by_cases he : (pyStrip text).data.isEmpty
    · simp only [he, if_true]
      exact hs
    · simp only [he, if_false, Bool.false_eq_true]
      intro t ht
      rcases List.mem_append.mp ht with h | h
      · exact Nat.lt_succ_of_lt (hs t h)
      · simp only [List.mem_singleton] at h
        subst h
        exact Nat.lt_succ_self _
  · intro s ids status hs
    unfold set_status
    split
    · exact hs
    · split
      · exact hs
      · intro t ht
        rcases List.mem_map.mp ht with ⟨t₀, ht₀, rfl⟩
        split <;> exact hs t₀ ht₀
  · intro s ids hs
    unfold toggle_selected
    split
    · exact hs
    · intro t ht
      rcases List.mem_map.mp ht with ⟨t₀, ht₀, rfl⟩
      split <;> exact hs t₀ ht₀
  · intro s ids c hs
    unfold remove_selected
    split
    · exact hs
    · split
      · intro t ht
        exact hs t (List.mem_of_mem_filter ht)
      · exact hs

/-- Witness for C2: on a concrete two-task store the next id is fresh and
stays a strict bound after an `add`. -/
theorem ids_monotone_never_reused_witness :
    (∀ t ∈ demoAfterB.tasks, t.id ≠ demoAfterB.next_id) ∧
    idsBelowNext (add_task demoAfterB "d" "low").state :=
  ids_monotone_never_reused.2.1 demoAfterB "d" "low"
    (by unfold idsBelowNext; decide)

/-- The early-`continue` loop of `filter_tasks` computes the same list as a
single `List.filter` by the conjunction of the three constraints. -/
theorem filterLoop_eq_filter (sf pf : Option String) (sl : String) (ts : List Task) :
    filterLoop sf pf sl ts = ts.filter (keepTask sf pf sl) := by
  induction ts with
  | nil => rfl
  | cons t ts ih =>
    simp only [filterLoop, List.filter_cons, keepTask]
    rcases Bool.eq_false_or_eq_true (strTruthy sf) with hA | hA <;>
    rcases Bool.eq_false_or_eq_true (t.status == sf) with hB | hB <;>
    rcases Bool.eq_false_or_eq_true (strTruthy pf) with hC | hC <;>
    rcases Bool.eq_false_or_eq_true (t.priority == pf) with hD | hD <;>
    rcases Bool.eq_false_or_eq_true (sl.data.isEmpty) with hE | hE <;>
    rcases Bool.eq_false_or_eq_true (pyContains (pyLower (t.task.getD "")) sl) with hF | hF <;>
    simp [hA, hB, hC, hD, hE, hF, ih]

/-- C8: `filter_tasks` returns exactly the records satisfying the conjunction
of the active constraints (unset filters and empty search text are no
constraint; text matching is a case-insensitive substring test of the
stripped search text against the unstripped record text), in input order
since it is a `List.filter`; with no constraints it returns the input
unchanged, and `"milk"` matches the record with text `"Buy Milk"`. -/
theorem filter_is_conjunction_of_constraints :
    (∀ ts sf pf search, filter_tasks ts sf pf search =
        ts.filter (keepTask sf pf (pyStrip (pyLower search)))) ∧
    (∀ ts, filter_tasks ts none none "" = ts) ∧
    filter_tasks [demoMilkTask] none none "milk" = [demoMilkTask] := by
  refine ⟨?_, ?_, by decide⟩
  · intro ts sf pf search
    exact filterLoop_eq_filter sf pf (pyStrip (pyLower search)) ts
  · intro ts
    unfold filter_tasks
    rw [filterLoop_eq_filter]
    exact List.filter_eq_self.mpr fun a _ => rfl

/-- C7: `sort_tasks` produces a list ordered by priority rank then id, a
permutation of its input, stable on key ties (any sub-sequence of records
sharing one sort key survives as a sub-sequence, in input order); the example
with (priority, id) = (low, 1), (high, 2), (medium, 3) sorts to ids
[2, 3, 1].  Determinism holds because `sort_tasks` is a function. -/
theorem sort_by_priority_then_id :
    (∀ ts, (sort_tasks ts).Pairwise taskRel) ∧
    (∀ ts, (sort_tasks ts).Perm ts) ∧
    (∀ (ts : List Task) (k : Nat × Nat),
      ((ts.filter fun t => taskSortKey t == k).Sublist (sort_tasks ts))) ∧
    (sort_tasks demoSortInput).map Task.id = [2, 3, 1] := by
  refine ⟨?_, ?_, ?_, by decide⟩
  · intro ts
    exact List.sorted_insertionSort taskRel ts
  · intro ts
    exact List.perm_insertionSort taskRel ts
  · intro ts k
    apply List.sublist_insertionSort
    · apply List.pairwise_of_forall_mem_list
      intro a ha b hb
      have hka : taskSortKey a = k := by simpa using List.of_mem_filter ha
      have hkb : taskSortKey b = k := by simpa using List.of_mem_filter hb
      unfold taskRel taskLE
      rw [hka, hkb]
      simp
    · exact List.filter_sublist ts

/-- The derived status strings are truthy, so normalization stabilises. -/
theorem strTruthy_done : strTruthy (some "done") = true := rfl

/-- The pending string is truthy as well. -/
theorem strTruthy_pending : strTruthy (some "pending") = true := rfl

/-- One normalization pass is idempotent on a single record. -/
theorem normalizeTask_idem (t : Task) :
    normalizeTask (normalizeTask t) = normalizeTask t := by
  obtain ⟨i, tx, st, dn, pr⟩ := t
  cases st with
  | none =>
    cases pr <;> by_cases hd : boolTruthy dn <;>
      simp [normalizeTask, strTruthy, hd]
  | some s =>
    by_cases hse : s.data.isEmpty <;> cases pr <;> by_cases hd : boolTruthy dn <;>
      simp [normalizeTask, strTruthy, hse, hd]

/-- C9: normalization is idempotent on any loaded collection; a record with a
missing (falsy) status gets it derived from the legacy `done` flag
(truthy → `"done"`, else `"pending"`) with `done` set consistently, and a
record with no priority key gets `"medium"`. -/
theorem normalize_idempotent :
    (∀ ts, normalize_tasks (normalize_tasks ts) = normalize_tasks ts) ∧
    (∀ t, strTruthy t.status = false → boolTruthy t.done = true →
      (normalizeTask t).status = some "done" ∧ (normalizeTask t).done = some true) ∧
    (∀ t, strTruthy t.status = false → boolTruthy t.done = false →
      (normalizeTask t).status = some "pending" ∧ (normalizeTask t).done = some false) ∧
    (∀ t, t.priority = none → (normalizeTask t).priority = some "medium") := by
  refine ⟨?_, ?_, ?_, ?_⟩
  · intro ts
    unfold normalize_tasks
    rw [List.map_map]
    exact List.map_congr_left fun t _ => normalizeTask_idem t
  · intro t h1 h2
    obtain ⟨i, tx, st, dn, pr⟩ := t
    cases pr <;> simp_all [normalizeTask]
  · intro t h1 h2
    obtain ⟨i, tx, st, dn, pr⟩ := t
    cases pr <;> simp_all [normalizeTask]
  · intro t h
    obtain ⟨i, tx, st, dn, pr⟩ := t
    simp only at h
    subst h
    by_cases hst : strTruthy st <;> simp [normalizeTask, hst]

/-- Witness for C9: the legacy record with `done: true` and no status is
migrated to status `"done"` with a consistent `done` field. -/
theorem normalize_idempotent_witness :
    (strTruthy demoLegacyTask.status = false ∧ boolTruthy demoLegacyTask.done = true) ∧
    (normalizeTask demoLegacyTask).status = some "done" ∧
    (normalizeTask demoLegacyTask).done = some true :=
  ⟨⟨rfl, rfl⟩, normalize_idempotent.2.1 demoLegacyTask rfl rfl⟩

/-- The three status counters of `calculate_stats` sum to the count of
records whose status is one of the three enum values, since the string
equality tests are mutually exclusive. -/
theorem counts_eq_countP_statusCounted (ts : List Task) :
    ts.countP (fun t => t.status == some "pending") +
    ts.countP (fun t => t.status == some "in_progress") +
    ts.countP (fun t => t.status == some "done") =
    ts.countP (fun t => statusCounted t) := by
  induction ts with
  | nil => rfl
  | cons t ts ih =>
    simp only [List.countP_cons]
    have h : (if (t.status == some "pending") = true then 1 else 0) +
        (if (t.status == some "in_progress") = true then 1 else 0) +
        (if (t.status == some "done") = true then 1 else 0) =
        (if statusCounted t = true then 1 else 0) := by
      unfold statusCounted
      rcases Bool.eq_false_or_eq_true (t.status == some "pending") with hp | hp <;>
      rcases Bool.eq_false_or_eq_true (t.status == some "in_progress") with hi | hi <;>
      rcases Bool.eq_false_or_eq_true (t.status == some "done") with hd | hd <;>
      simp_all [beq_iff_eq]
    omega

/-- C10: `calculate_stats` counts by exact string equality on `status`, so
`pending + in_progress + done ≤ total`, with equality exactly when every
record's status is one of the three valid values, and a record with an
invalid status raises `total` by one while leaving all three counters (in
particular `done`, which drives the completion percentage) unchanged. -/
theorem stats_count_by_exact_status (ts : List Task) :
    (calculate_stats ts).pending + (calculate_stats ts).in_progress +
      (calculate_stats ts).done ≤ (calculate_stats ts).total ∧
    ((calculate_stats ts).pending + (calculate_stats ts).in_progress +
        (calculate_stats ts).done = (calculate_stats ts).total ↔
      ∀ t ∈ ts, statusCounted t = true) ∧
    ∀ t, statusCounted t = false →
      (calculate_stats (t :: ts)).total = (calculate_stats ts).total + 1 ∧
      (calculate_stats (t :: ts)).pending = (calculate_stats ts).pending ∧
      (calculate_stats (t :: ts)).in_progress = (calculate_stats ts).in_progress ∧
      (calculate_stats (t :: ts)).done = (calculate_stats ts).done := by
  have hkey := counts_eq_countP_statusCounted ts
  refine ⟨?_, ?_, ?_⟩
  · show ts.countP _ + ts.countP _ + ts.countP _ ≤ ts.length
    rw [hkey]
    exact List.countP_le_length _
  · show ts.countP _ + ts.countP _ + ts.countP _ = ts.length ↔ _
    rw [hkey]
    exact List.countP_eq_length
  · intro t h
    have h1 : (t.status == some "pending") = false := by
      unfold statusCounted at h
      simp only [Bool.or_eq_false_iff] at h
      exact h.1.1
    have h2 : (t.status == some "in_progress") = false := by
      unfold statusCounted at h
      simp only [Bool.or_eq_false_iff] at h
      exact h.1.2
    have h3 : (t.status == some "done") = false := by
      unfold statusCounted at h
      simp only [Bool.or_eq_false_iff] at h
      exact h.2
    refine ⟨rfl, ?_, ?_, ?_⟩ <;>
      simp only [calculate_stats] <;>
      simp [List.countP_cons, h1, h2, h3]

/-- Witness for C10: prepending a record with status `"weird"` to the
three-task example raises the total by one and changes no counter. -/
theorem stats_count_by_exact_status_witness :
    statusCounted demoBogusStatusTask = false ∧
    (calculate_stats (demoBogusStatusTask :: demoThreeTasks)).total =
      (calculate_stats demoThreeTasks).total + 1 ∧
    (calculate_stats (demoBogusStatusTask :: demoThreeTasks)).pending =
      (calculate_stats demoThreeTasks).pending ∧
    (calculate_stats (demoBogusStatusTask :: demoThreeTasks)).in_progress =
      (calculate_stats demoThreeTasks).in_progress ∧
    (calculate_stats (demoBogusStatusTask :: demoThreeTasks)).done =
      (calculate_stats demoThreeTasks).done :=
  ⟨rfl, (stats_count_by_exact_status demoThreeTasks).2.2 demoBogusStatusTask rfl⟩

/-- Rounding a non-negative rational to the nearest integer is non-negative. -/
theorem roundHalfEven_nonneg {q : ℚ} (h : 0 ≤ q) : 0 ≤ roundHalfEven q := by
  unfold roundHalfEven
  have hf : 0 ≤ ⌊q⌋ := Int.floor_nonneg.mpr h
  split
  · exact hf
  · split
    · omega
    · split <;> omega

/-- Binary64 rounding preserves non-negativity. -/
theorem roundB64_nonneg {q : ℚ} (h : 0 ≤ q) : 0 ≤ roundB64 q := by
  rcases h.eq_or_lt with rfl | hq
  · simp [roundB64]
  · unfold roundB64 roundB64pos
    rw [if_neg (ne_of_gt hq), if_pos hq]
    have harg : (0 : ℚ) ≤ q * 2 ^ ((52 : ℤ) - max (Int.log 2 q) (-1022)) := by
      positivity
    have hm := roundHalfEven_nonneg harg
    have hm' : (0 : ℚ) ≤
        (roundHalfEven (q * 2 ^ ((52 : ℤ) - max (Int.log 2 q) (-1022))) : ℚ) := by
      exact_mod_cast hm
    positivity

/-- The binade bracketing `2 ^ e ≤ q < 2 ^ (e + 1)` determines `⌊log₂ q⌋`. -/
theorem int_log_eq_of_zpow_le_of_lt {q : ℚ} {e : ℤ} (hq : 0 < q)
    (h1 : (2 : ℚ) ^ e ≤ q) (h2 : q < (2 : ℚ) ^ (e + 1)) : Int.log 2 q = e := by
  have hb : 1 < 2 := by norm_num
  have hle : e ≤ Int.log 2 q := (Int.zpow_le_iff_le_log hb hq).mp (by exact_mod_cast h1)
  have hlt : Int.log 2 q < e + 1 := (Int.lt_zpow_iff_log_lt hb hq).mp (by exact_mod_cast h2)
  omega

/-- Evaluation rule for `roundB64` on a positive in-range rational: exhibit
the binade exponent and the rounded scaled significand. -/
theorem roundB64_eval {q : ℚ} {e m : ℤ} (hq : 0 < q) (he : -1022 ≤ e)
    (h1 : (2 : ℚ) ^ e ≤ q) (h2 : q < (2 : ℚ) ^ (e + 1))
    (hm : roundHalfEven (q * 2 ^ ((52 : ℤ) - e)) = m) :
    roundB64 q = (m : ℚ) * 2 ^ (e - 52) := by
  have hlog : Int.log 2 q = e := int_log_eq_of_zpow_le_of_lt hq h1 h2
  have hmax : max (Int.log 2 q) (-1022) = e := by
    rw [hlog]
    exact max_eq_left he
  unfold roundB64 roundB64pos
  rw [if_neg (ne_of_gt hq), if_pos hq, hmax, hm]

/-- For a non-empty collection the completion percentage is the twice-rounded
binary64 value of `done / total * 100`. -/
theorem calculate_stats_percent_pos (ts : List Task) (h : 0 < ts.length) :
    (calculate_stats ts).completion_percent =
      roundB64 (roundB64
        ((ts.countP (fun t => t.status == some "done") : ℚ) / (ts.length : ℚ)) * 100) := by
  simp only [calculate_stats]
  rw [if_pos h]

/-- The binary64 quotient `29 / 100`: one ulp below the next value, with
significand `5224175567749775` in the binade `[2 ^ (-2), 2 ^ (-1))`. -/
theorem roundB64_29_div_100 :
    roundB64 ((29 : ℚ) / 100) = (5224175567749775 : ℚ) * 2 ^ ((-2 : ℤ) - 52) := by
  apply roundB64_eval (by norm_num) (by norm_num)
  · norm_num
  · norm_num
  · unfold roundHalfEven
    norm_num

/-- Multiplying that quotient by 100 in binary64 gives `29 - 2 ^ (-48)`,
strictly below 29. -/
theorem roundB64_29_quotient_times_100 :
    roundB64 ((5224175567749775 : ℚ) * 2 ^ ((-2 : ℤ) - 52) * 100) =
      (8162774324609023 : ℚ) * 2 ^ ((4 : ℤ) - 52) := by
  apply roundB64_eval (by norm_num) (by norm_num)
  · norm_num
  · norm_num
  · unfold roundHalfEven
    norm_num

/-- The binary64 quotient `1 / 3`. -/
theorem roundB64_one_third :
    roundB64 ((1 : ℚ) / 3) = (6004799503160661 : ℚ) * 2 ^ ((-2 : ℤ) - 52) := by
  apply roundB64_eval (by norm_num) (by norm_num)
  · norm_num
  · norm_num
  · unfold roundHalfEven
    norm_num

/-- Multiplying the binary64 third by 100 in binary64. -/
theorem roundB64_one_third_times_100 :
    roundB64 ((6004799503160661 : ℚ) * 2 ^ ((-2 : ℤ) - 52) * 100) =
      (4691249611844266 : ℚ) * 2 ^ ((5 : ℤ) - 52) := by
  apply roundB64_eval (by norm_num) (by norm_num)
  · norm_num
  · norm_num
  · unfold roundHalfEven
    norm_num

/-- C6 counterexample: with 100 tasks of which 29 are done, the program
computes `29 / 100 * 100` in binary64 as `29 - 2 ^ (-48)` and displays 28,
while the truncation toward zero of the claimed exact `done / total * 100`
is 29 — so the displayed percent is not the truncation of the exact
formula. -/
theorem completion_percent_float_counterexample :
    displayed_completion_percent demo29of100 = 28 ∧
    ⌊((calculate_stats demo29of100).done : ℚ) /
        ((calculate_stats demo29of100).total : ℚ) * 100⌋ = 29 := by
  have hcount : demo29of100.countP (fun t => t.status == some "done") = 29 := by decide
  have hlen : demo29of100.length = 100 := by decide
  constructor
  · unfold displayed_completion_percent
    rw [calculate_stats_percent_pos demo29of100 (by decide), hcount, hlen]
    push_cast
    rw [roundB64_29_div_100, roundB64_29_quotient_times_100]
    unfold pyInt
    norm_num
  · have hd : (calculate_stats demo29of100).done = 29 := by
      simp only [calculate_stats]
      exact hcount
    have ht : (calculate_stats demo29of100).total = 100 := by
      simp only [calculate_stats]
      exact hlen
    rw [hd, ht]
    push_cast
    norm_num

/-- C6 (amended): the completion percentage is the binary64 evaluation of
`done / total * 100` (quotient correctly rounded, then the product with 100
rounded) when `total > 0`, and exactly `0` when `total = 0` — never
NaN/undefined, since the division is guarded; the displayed percent is the
truncation toward zero of that float value (its floor, as the value is
non-negative, at most the float and within one below it); 3 tasks with 1
done display 33. -/
theorem completion_percent_float_spec :
    (∀ ts, (calculate_stats ts).total = 0 →
      (calculate_stats ts).completion_percent = 0) ∧
    (∀ ts, 0 < (calculate_stats ts).total →
      (calculate_stats ts).completion_percent =
        roundB64 (roundB64 (((calculate_stats ts).done : ℚ) /
          ((calculate_stats ts).total : ℚ)) * 100)) ∧
    (∀ ts, 0 ≤ (calculate_stats ts).completion_percent ∧
      displayed_completion_percent ts = ⌊(calculate_stats ts).completion_percent⌋ ∧
      ((displayed_completion_percent ts : ℚ) ≤ (calculate_stats ts).completion_percent ∧
       (calculate_stats ts).completion_percent < displayed_completion_percent ts + 1)) ∧
    displayed_completion_percent demoThreeTasks = 33 := by
  have hnonneg : ∀ ts : List Task, 0 ≤ (calculate_stats ts).completion_percent := by
    intro ts
    simp only [calculate_stats]
    split
    · exact roundB64_nonneg (mul_nonneg (roundB64_nonneg (by positivity)) (by norm_num))
    · exact le_refl 0
  have hfloor : ∀ ts : List Task,
      displayed_completion_percent ts = ⌊(calculate_stats ts).completion_percent⌋ := by
    intro ts
    unfold displayed_completion_percent pyInt
    rw [if_neg (not_lt.mpr (hnonneg ts))]
  refine ⟨?_, ?_, ?_, ?_⟩
  · intro ts h
    simp only [calculate_stats] at h ⊢
    simp [h]
  · intro ts h
    exact calculate_stats_percent_pos ts h
  · intro ts
    refine ⟨hnonneg ts, hfloor ts, ?_, ?_⟩
    · rw [hfloor ts]
      exact Int.floor_le _
    · rw [hfloor ts]
      exact Int.lt_floor_add_one _
  · have hcount : demoThreeTasks.countP (fun t => t.status == some "done") = 1 := by decide
    have hlen : demoThreeTasks.length = 3 := by decide
    unfold displayed_completion_percent
    rw [calculate_stats_percent_pos demoThreeTasks (by decide), hcount, hlen]
    push_cast
    rw [roundB64_one_third, roundB64_one_third_times_100]
    unfold pyInt
    norm_num

/-- Witness for C6 (amended): the three-task example has a positive total,
and its completion percentage is the twice-rounded binary64 formula. -/
theorem completion_percent_float_spec_witness :
    0 < (calculate_stats demoThreeTasks).total ∧
    (calculate_stats demoThreeTasks).completion_percent =
      roundB64 (roundB64 (((calculate_stats demoThreeTasks).done : ℚ) /
        ((calculate_stats demoThreeTasks).total : ℚ)) * 100) :=
  ⟨by decide, completion_percent_float_spec.2.1 demoThreeTasks (by decide)⟩

end TodoApp
